import Mathlib

/-
Shallow embedding of the tiny_calc interactive calculator
(src/tiny_calc/src/main.rs and src/tiny_calc/src/error.rs).

The pipeline is tokenize -> parse -> evaluate over a mutable environment.
Rust's `Result<T, Error>` with `Error::SyntaxError(String)` is embedded as
`Except` over an error type; Rust panics (`unwrap`/`expect`, which abort the
process) are modelled as explicit `Panicked`/`panicked` outcomes, kept
distinct from the recoverable `SyntaxError`.  Mutation of `&mut` state
(the parser cursor, the variable environment) is embedded as explicit
state passing.
-/

deriving instance DecidableEq for Except

/-- Token kinds, one per Rust `TokenType` variant. -/
inductive TokenType where
  | Num
  | Name
  | Plus
  | Minus
  | Times
  | Lparen
  | Rparen
  | Assign
deriving DecidableEq, Repr

/-- A lexical token: `token_type` plus the exact matched text `val`,
as in the Rust `Token` struct. -/
structure Token where
  token_type : TokenType
  val : String
deriving DecidableEq, Repr

instance : Inhabited Token := ⟨⟨TokenType.Num, ""⟩⟩

/-- Rendering of a `TokenType` as Rust derived `Debug` prints it. -/
def tokenTypeDebug : TokenType → String
  | .Num => "Num"
  | .Name => "Name"
  | .Plus => "Plus"
  | .Minus => "Minus"
  | .Times => "Times"
  | .Lparen => "Lparen"
  | .Rparen => "Rparen"
  | .Assign => "Assign"

/-- Rendering of a `Token` as Rust derived `Debug` (and hence `Display`,
which delegates to `Debug`) prints it. -/
def tokenDebug (t : Token) : String :=
  "Token \x7b token_type: " ++ tokenTypeDebug t.token_type ++ ", val: \"" ++ t.val ++ "\" \x7d"

/-- The single-symbol arm of the Rust `tokenize` loop: the `match` over
`+ * - ( ) =` producing a token, or `Error::SyntaxError` for any other
character.  Match arms are in the source order. -/
def charToken (c : Char) : Except String Token :=
  if c = '+' then .ok ⟨TokenType.Plus, "+"⟩
  else if c = '*' then .ok ⟨TokenType.Times, "*"⟩
  else if c = '-' then .ok ⟨TokenType.Minus, "-"⟩
  else if c = '(' then .ok ⟨TokenType.Lparen, "("⟩
  else if c = ')' then .ok ⟨TokenType.Rparen, ")"⟩
  else if c = '=' then .ok ⟨TokenType.Assign, "="⟩
  else .error ("Couldn\x27t parse " ++ String.singleton c ++ " to a token")

/-- The 25 code points with the Unicode `White_Space` property:
U+0009..U+000D, U+0020, U+0085, U+00A0, U+1680, U+2000..U+200A, U+2028,
U+2029, U+202F, U+205F and U+3000. -/
def rustWhitespaceChars : List Char :=
  ['\t', '\n', '\x0b', '\x0c', '\r', ' ', '\x85', '\xa0', '\u1680',
   '\u2000', '\u2001', '\u2002', '\u2003', '\u2004', '\u2005', '\u2006',
   '\u2007', '\u2008', '\u2009', '\u200a', '\u2028', '\u2029', '\u202f',
   '\u205f', '\u3000']

/-- Rust's `char::is_whitespace()`: membership in the Unicode
`White_Space` set (which is what the Rust standard library tests). -/
def rustIsWhitespace (c : Char) : Bool :=
  decide (c ∈ rustWhitespaceChars)

/-- The `tokenize` scanning loop.  One recursive call per loop pass that
consumes at least one character; `fuel` is a structural-recursion bound on
the number of passes, consumed once per pass, so `fuel = length of the
input` (as supplied by `tokenize`) can never be exhausted: the fuel-out
branch is unreachable for the actual entry point.

Mirrors the Rust loop: skip Unicode whitespace (`char::is_whitespace`,
embedded as `rustIsWhitespace`); a maximal ASCII-digit run becomes
one `Num` token; a maximal ASCII-alphabetic run becomes one `Name` token;
otherwise a single-symbol token via `charToken`, whose error aborts the
whole tokenization (the Rust `tokens.push(token?)`). -/
def tokenizeF : Nat → List Char → Except String (List Token)
  | _, [] => .ok []
  | 0, _ :: _ => .error ("scan fuel exhausted (unreachable from tokenize)")
  | fuel + 1, c :: cs =>
    if rustIsWhitespace c then
      tokenizeF fuel cs
    else if c.isDigit then
      (tokenizeF fuel (cs.dropWhile Char.isDigit)).map
        (fun ts => ⟨TokenType.Num, String.mk (c :: cs.takeWhile Char.isDigit)⟩ :: ts)
    else if c.isAlpha then
      (tokenizeF fuel (cs.dropWhile Char.isAlpha)).map
        (fun ts => ⟨TokenType.Name, String.mk (c :: cs.takeWhile Char.isAlpha)⟩ :: ts)
    else
      match charToken c with
      | .ok t => (tokenizeF fuel cs).map (fun ts => t :: ts)
      | .error e => .error e

/-- Rust `tokenize(source: &str) -> Result<Vec<Token>>`.  Each scanning
pass consumes at least one character, so `source.toList.length` passes
always suffice. -/
def tokenize (source : String) : Except String (List Token) :=
  tokenizeF source.toList.length source.toList

/-- Expression tree, one constructor per Rust `Expr` variant.  Rust's
`Box<Expr>` children become direct sub-expressions; `i32` literal payloads
become `Int` (integer-overflow behavior of the arithmetic is outside every
claim and left as plain `Int` arithmetic). -/
inductive Expr where
  | Number (n : Int)
  | Variable (name : String)
  | Assign (location : Expr) (value : Expr)
  | Add (left : Expr) (right : Expr)
  | Minus (left : Expr) (right : Expr)
  | Mul (left : Expr) (right : Expr)
deriving DecidableEq, Repr

/-- Rendering of an `Expr` as Rust derived `Debug` (and hence `Display`,
which delegates to `Debug`) prints it.  Variable names produced by the
program are ASCII-alphabetic, so the string payload needs no escaping. -/
def exprDebug : Expr → String
  | .Number n => "Number \x7b n: " ++ toString n ++ " \x7d"
  | .Variable name => "Variable \x7b name: \"" ++ name ++ "\" \x7d"
  | .Assign l v =>
      "Assign \x7b location: " ++ exprDebug l ++ ", value: " ++ exprDebug v ++ " \x7d"
  | .Add l r => "Add \x7b left: " ++ exprDebug l ++ ", right: " ++ exprDebug r ++ " \x7d"
  | .Minus l r => "Minus \x7b left: " ++ exprDebug l ++ ", right: " ++ exprDebug r ++ " \x7d"
  | .Mul l r => "Mul \x7b left: " ++ exprDebug l ++ ", right: " ++ exprDebug r ++ " \x7d"

/-- Parser-stage outcome tag.  `SyntaxError` embeds the Rust
`Error::SyntaxError` (the recoverable `ParseError` of the spec);
`Panicked` embeds a Rust panic, i.e. a process abort via `expect`, which
is NOT a recoverable parse error. -/
inductive PErr where
  | SyntaxError (msg : String)
  | Panicked (msg : String)
deriving DecidableEq, Repr

/-- The Rust `Parser` struct: the token sequence plus cursor `n`. -/
structure Parser where
  tokens : List Token
  n : Nat
deriving DecidableEq, Repr

/-- Rust `Parser::accept`: if the cursor is in bounds and the current
token has the requested kind, advance and return true; otherwise leave
the parser unchanged and return false.  The `&mut self` becomes an
explicit returned parser. -/
def Parser.accept (p : Parser) (tt : TokenType) : Bool × Parser :=
  if p.n < p.tokens.length ∧ (p.tokens.getD p.n default).token_type = tt then
    (true, ⟨p.tokens, p.n + 1⟩)
  else
    (false, p)

/-- Rust `Parser::last`: errors whenever `n >= tokens.len()` (note: this
check fires precisely when the cursor sits at the end of the token
sequence, i.e. right after the final token was consumed), otherwise
returns `tokens[n - 1]`.  Rust's `usize` subtraction `n - 1` would panic
for `n = 0`, but every call site first performs a successful `accept`, so
`n ≥ 1` there; `getD` with truncated subtraction is used for that
unreachable corner. -/
def Parser.last (p : Parser) : Except PErr Token :=
  if p.n ≥ p.tokens.length then
    .error (.SyntaxError ("Syntax error somewhere."))
  else
    .ok (p.tokens.getD (p.n - 1) default)

/-- Rust `Parser::at_end`: `self.n <= self.tokens.len()`.  As the cursor
never exceeds the token count, this is true in every reachable state. -/
def Parser.at_end (p : Parser) : Bool :=
  p.n ≤ p.tokens.length

/-- Rust's `str::parse::<i32>()` as applied to a `Num` token's text, which
is always a nonempty run of ASCII decimal digits: the denoted value if it
fits in a 32-bit signed integer, `none` (Rust `Err(ParseIntError)`) on
overflow or a non-digit/empty string. -/
def parseI32 (s : String) : Option Int :=
  if s.isEmpty then none
  else if s.toList.all Char.isDigit then
    let v := s.toList.foldl (fun acc c => acc * 10 + (c.toNat - '0'.toNat)) 0
    if v ≤ 2147483647 then some (Int.ofNat v) else none
  else none

/-- Selector for the two mutually recursive Rust parsing functions. -/
inductive NonTerminal where
  | term
  | expression
deriving DecidableEq, Repr

/-- The mutually recursive Rust functions `parse_term` and
`parse_expression`, combined into one function selected by a
`NonTerminal` so that the recursion is structural on `fuel` (one unit per
call; the call depth of a run on `len` tokens is at most `2 * len + 2`,
the budget `parse` supplies, so the fuel-out branch is unreachable from
`parse`).  A fuel-out is reported as `Panicked`, never as the recoverable
`SyntaxError`.

`.term` is Rust `parse_term`: accept a `Num` (whose text is converted
with `str::parse::<i32>()`, panicking via `expect("couldn't parse digit")`
if the conversion fails), or a `Name`, or a parenthesized expression
requiring a closing `Rparen`, else the generic "Cannot process token"
syntax error.

`.expression` is Rust `parse_expression`: one term, then optionally
exactly one `+`, `-` or `*` followed by one more term, or `=` followed by
a recursive expression; otherwise the bare term. -/
def parseGo : Nat → NonTerminal → Parser → Except PErr (Expr × Parser)
  | 0, _, _ => .error (.Panicked ("recursion fuel exhausted (unreachable from parse)"))
  | fuel + 1, .term, p =>
    if (p.accept TokenType.Num).1 then
      let p1 := (p.accept TokenType.Num).2
      match p1.last with
      | .error e => .error e
      | .ok t =>
        match parseI32 t.val with
        | some v => .ok (.Number v, p1)
        | none => .error (.Panicked ("couldn\x27t parse digit"))
    else if (p.accept TokenType.Name).1 then
      let p1 := (p.accept TokenType.Name).2
      match p1.last with
      | .error e => .error e
      | .ok t => .ok (.Variable t.val, p1)
    else if (p.accept TokenType.Lparen).1 then
      match parseGo fuel .expression (p.accept TokenType.Lparen).2 with
      | .error e => .error e
      | .ok (e, p2) =>
        if (p2.accept TokenType.Rparen).1 then
          .ok (e, (p2.accept TokenType.Rparen).2)
        else
          .error (.SyntaxError ("( not closed by a ). Found ( " ++ exprDebug e ++ " "))
    else
      .error (.SyntaxError ("Cannot process token"))
  | fuel + 1, .expression, p =>
    match parseGo fuel .term p with
    | .error e => .error e
    | .ok (left, p1) =>
      if (p1.accept TokenType.Plus).1 then
        match parseGo fuel .term (p1.accept TokenType.Plus).2 with
        | .error e => .error e
        | .ok (right, p2) => .ok (.Add left right, p2)
      else if (p1.accept TokenType.Minus).1 then
        match parseGo fuel .term (p1.accept TokenType.Minus).2 with
        | .error e => .error e
        | .ok (right, p2) => .ok (.Minus left right, p2)
      else if (p1.accept TokenType.Times).1 then
        match parseGo fuel .term (p1.accept TokenType.Times).2 with
        | .error e => .error e
        | .ok (right, p2) => .ok (.Mul left right, p2)
      else if (p1.accept TokenType.Assign).1 then
        match parseGo fuel .expression (p1.accept TokenType.Assign).2 with
        | .error e => .error e
        | .ok (v, p2) => .ok (.Assign left v, p2)
      else
        .ok (left, p1)

/-- Rust `parse_term`, via the combined `parseGo`. -/
def parse_term (fuel : Nat) (p : Parser) : Except PErr (Expr × Parser) :=
  parseGo fuel .term p

/-- Rust `parse_expression`, via the combined `parseGo`. -/
def parse_expression (fuel : Nat) (p : Parser) : Except PErr (Expr × Parser) :=
  parseGo fuel .expression p

/-- Rust top-level `parse`: one expression, then the (vacuous, see
`Parser.at_end`) trailing-token check whose error formats the last
consumed token. -/
def parse (p : Parser) : Except PErr Expr :=
  match parse_expression (2 * p.tokens.length + 2) p with
  | .error e => .error e
  | .ok (e, p1) =>
    if p1.at_end then
      .ok e
    else
      match p1.last with
      | .error er => .error er
      | .ok t =>
        .error (.SyntaxError ("Unprocessed characters remain. Last unprocessed: " ++ tokenDebug t))

/-- The Rust `Environment`'s `HashMap<String, i32>`, embedded as an
association list with unique keys (insert overwrites in place). -/
abbrev Env := List (String × Int)

/-- Rust `Environment::assign`: `HashMap::insert`, i.e. overwrite the
binding for `name` if present, else append a new one. -/
def Environment.assign (env : Env) (name : String) (v : Int) : Env :=
  match env with
  | [] => [(name, v)]
  | (k, w) :: rest =>
    if k = name then (k, v) :: rest
    else (k, w) :: Environment.assign rest name v

/-- Rust `Environment::lookup` before its final `unwrap`: `HashMap::get`.
The `unwrap` itself — a process abort when the name is unbound — is
modelled at the call sites in `evaluate`. -/
def Environment.lookup (env : Env) (name : String) : Option Int :=
  match env with
  | [] => none
  | (k, w) :: rest =>
    if k = name then some w
    else Environment.lookup rest name

/-- Outcome of `evaluate`.  `ok`/`err` carry the environment as it stands
when control returns (Rust mutates it through `&mut`); `panicked` is a
Rust panic (process abort via `unwrap`), after which no environment is
observable. -/
inductive EvalRes where
  | ok (v : Int) (env : Env)
  | err (msg : String) (env : Env)
  | panicked (msg : String)
deriving DecidableEq, Repr

/-- Rust `evaluate(expr: &Expr, env: &mut Environment) -> Result<i32>`:
  * `Number` yields its literal;
  * `Variable` is `env.lookup(name)`, whose `unwrap` panics when the name
    is unbound;
  * `Assign` first matches on `location`: only when it is a `Variable`
    does it evaluate `value`, store it, and return a fresh lookup of the
    name; any other `location` yields `Err(SyntaxError)` formatting
    location then value, without evaluating `value`;
  * `Add`/`Minus`/`Mul` evaluate left then right, the first failure
    propagating with the environment as already mutated. -/
def evaluate : Expr → Env → EvalRes
  | .Number n, env => .ok n env
  | .Variable name, env =>
    match Environment.lookup env name with
    | some v => .ok v env
    | none => .panicked ("called `Option::unwrap()` on a `None` value")
  | .Assign location value, env =>
    match location with
    | .Variable name =>
      match evaluate value env with
      | .ok v env1 =>
        match Environment.lookup (Environment.assign env1 name v) name with
        | some w => .ok w (Environment.assign env1 name v)
        | none => .panicked ("called `Option::unwrap()` on a `None` value")
      | .err m env1 => .err m env1
      | .panicked m => .panicked m
    | _ => .err (exprDebug location ++ exprDebug value) env
  | .Add left right, env =>
    match evaluate left env with
    | .ok v1 env1 =>
      match evaluate right env1 with
      | .ok v2 env2 => .ok (v1 + v2) env2
      | .err m env2 => .err m env2
      | .panicked m => .panicked m
    | .err m env1 => .err m env1
    | .panicked m => .panicked m
  | .Minus left right, env =>
    match evaluate left env with
    | .ok v1 env1 =>
      match evaluate right env1 with
      | .ok v2 env2 => .ok (v1 - v2) env2
      | .err m env2 => .err m env2
      | .panicked m => .panicked m
    | .err m env1 => .err m env1
    | .panicked m => .panicked m
  | .Mul left right, env =>
    match evaluate left env with
    | .ok v1 env1 =>
      match evaluate right env1 with
      | .ok v2 env2 => .ok (v1 * v2) env2
      | .err m env2 => .err m env2
      | .panicked m => .panicked m
    | .err m env1 => .err m env1
    | .panicked m => .panicked m

/-- True when the expression contains no `Assign` node anywhere. -/
def noAssign : Expr → Bool
  | .Number _ => true
  | .Variable _ => true
  | .Assign _ _ => false
  | .Add l r => noAssign l && noAssign r
  | .Minus l r => noAssign l && noAssign r
  | .Mul l r => noAssign l && noAssign r

/-- True exactly for `Variable` nodes. -/
def Expr.isVariable : Expr → Bool
  | .Variable _ => true
  | _ => false

/-- The character classes `tokenize` recognizes: whitespace, ASCII
digits, ASCII letters, and the six single-symbol tokens. -/
def goodChar (c : Char) : Bool :=
  rustIsWhitespace c || c.isDigit || c.isAlpha ||
    c == '+' || c == '-' || c == '*' || c == '(' || c == ')' || c == '='

/-- The environment component of an evaluation outcome, when the process
survives (`none` after a panic). -/
def resEnv : EvalRes → Option Env
  | .ok _ env => some env
  | .err _ env => some env
  | .panicked _ => none

/-- The token sequence of the input line `"1 + 2 + 3"`. -/
def toks123 : List Token :=
  [⟨TokenType.Num, "1"⟩, ⟨TokenType.Plus, "+"⟩, ⟨TokenType.Num, "2"⟩,
   ⟨TokenType.Plus, "+"⟩, ⟨TokenType.Num, "3"⟩]

/-- The token sequence of the input line `"(1 + 2) * 3"`. -/
def toksParen : List Token :=
  [⟨TokenType.Lparen, "("⟩, ⟨TokenType.Num, "1"⟩, ⟨TokenType.Plus, "+"⟩,
   ⟨TokenType.Num, "2"⟩, ⟨TokenType.Rparen, ")"⟩, ⟨TokenType.Times, "*"⟩,
   ⟨TokenType.Num, "3"⟩]

/-- The token sequence of the unbalanced input line `"(1 + 2"`. -/
def toksUnbalanced : List Token :=
  [⟨TokenType.Lparen, "("⟩, ⟨TokenType.Num, "1"⟩, ⟨TokenType.Plus, "+"⟩,
   ⟨TokenType.Num, "2"⟩]

/-- The token sequence of the input line `"9999999999 + 1"`. -/
def toksBig : List Token :=
  [⟨TokenType.Num, "9999999999"⟩, ⟨TokenType.Plus, "+"⟩, ⟨TokenType.Num, "1"⟩]

/-- No Unicode whitespace character is an ASCII digit. -/
theorem rws_not_digit (c : Char) (h : rustIsWhitespace c = true) : c.isDigit = false := by
  have hmem : c ∈ rustWhitespaceChars := by simpa [rustIsWhitespace] using h
  have hall : ∀ x ∈ rustWhitespaceChars, x.isDigit = false := by decide
  exact hall c hmem

/-- No Unicode whitespace character is ASCII-alphabetic. -/
theorem rws_not_alpha (c : Char) (h : rustIsWhitespace c = true) : c.isAlpha = false := by
  have hmem : c ∈ rustWhitespaceChars := by simpa [rustIsWhitespace] using h
  have hall : ∀ x ∈ rustWhitespaceChars, x.isAlpha = false := by decide
  exact hall c hmem

/-- An ASCII digit is never a Unicode whitespace character. -/
theorem digit_not_rws (c : Char) (h : c.isDigit = true) : rustIsWhitespace c = false := by
  cases hw : rustIsWhitespace c
  · rfl
  · rw [rws_not_digit c hw] at h
    cases h

/-- An ASCII-alphabetic character is never a Unicode whitespace
character. -/
theorem alpha_not_rws (c : Char) (h : c.isAlpha = true) : rustIsWhitespace c = false := by
  cases hw : rustIsWhitespace c
  · rfl
  · rw [rws_not_alpha c hw] at h
    cases h

/-- The four characters of Lean's `Char.isWhitespace` all carry the
Unicode White_Space property. -/
theorem ws_sub_rws (c : Char) (h : c.isWhitespace = true) : rustIsWhitespace c = true := by
  simp [Char.isWhitespace] at h
  rcases h with ((rfl | rfl) | rfl) | rfl <;> decide

/-- An ASCII-alphabetic character is never an ASCII digit. -/
theorem alpha_not_digit (c : Char) (h : c.isAlpha = true) : c.isDigit = false := by
  simp [Char.isAlpha, Char.isUpper, Char.isLower, Char.isDigit, UInt32.le_def,
    BitVec.le_def] at h
  simp [Char.isDigit, UInt32.le_def, BitVec.le_def]
  omega

/-- Looking a name up right after assigning it yields the just-assigned
value. -/
theorem lookup_assign (env : Env) (name : String) (v : Int) :
    Environment.lookup (Environment.assign env name v) name = some v := by
  induction env with
  | nil => simp [Environment.assign, Environment.lookup]
  | cons kv rest ih =>
    obtain ⟨k, w⟩ := kv
    by_cases hk : k = name
    · subst hk
      simp [Environment.assign, Environment.lookup]
    · simp [Environment.assign, Environment.lookup, hk, ih]


/-- A character in none of the lexer character classes makes `charToken`
fail with the message naming that character. -/
theorem charToken_of_bad (c : Char) (h : goodChar c = false) :
    charToken c = .error ("Couldn\x27t parse " ++ String.singleton c ++ " to a token") := by
  have h1 : c ≠ '+' := by rintro rfl; revert h; decide
  have h2 : c ≠ '*' := by rintro rfl; revert h; decide
  have h3 : c ≠ '-' := by rintro rfl; revert h; decide
  have h4 : c ≠ '(' := by rintro rfl; revert h; decide
  have h5 : c ≠ ')' := by rintro rfl; revert h; decide
  have h6 : c ≠ '=' := by rintro rfl; revert h; decide
  simp [charToken, h1, h2, h3, h4, h5, h6]

/-- Environment preservation for assignment-free expressions: evaluation
either panics or hands back exactly the input environment. -/
theorem eval_noAssign_resEnv : ∀ e : Expr, noAssign e = true → ∀ env : Env,
    resEnv (evaluate e env) = none ∨ resEnv (evaluate e env) = some env := by
  intro e
  induction e with
  | Number n =>
    intro _ env
    right
    rfl
  | Variable name =>
    intro _ env
    cases hl : Environment.lookup env name
    · left
      simp [evaluate, hl, resEnv]
    · right
      simp [evaluate, hl, resEnv]
  | Assign l v ihl ihv =>
    intro h env
    simp [noAssign] at h
  | Add l r ihl ihr =>
    intro h env
    rw [noAssign, Bool.and_eq_true] at h
    cases hL : evaluate l env with
    | panicked m =>
      left
      simp [evaluate, hL, resEnv]
    | err m e1 =>
      have h1 := ihl h.1 env
      rw [hL] at h1
      simp [resEnv] at h1
      right
      simp [evaluate, hL, resEnv, h1]
    | ok v1 e1 =>
      have h1 := ihl h.1 env
      rw [hL] at h1
      simp [resEnv] at h1
      subst h1
      cases hR : evaluate r e1 with
      | panicked m =>
        left
        simp [evaluate, hL, hR, resEnv]
      | err m e2 =>
        have h2 := ihr h.2 e1
        rw [hR] at h2
        simp [resEnv] at h2
        subst h2
        right
        simp [evaluate, hL, hR, resEnv]
      | ok v2 e2 =>
        have h2 := ihr h.2 e1
        rw [hR] at h2
        simp [resEnv] at h2
        subst h2
        right
        simp [evaluate, hL, hR, resEnv]
  | Minus l r ihl ihr =>
    intro h env
    rw [noAssign, Bool.and_eq_true] at h
    cases hL : evaluate l env with
    | panicked m =>
      left
      simp [evaluate, hL, resEnv]
    | err m e1 =>
      have h1 := ihl h.1 env
      rw [hL] at h1
      simp [resEnv] at h1
      right
      simp [evaluate, hL, resEnv, h1]
    | ok v1 e1 =>
      have h1 := ihl h.1 env
      rw [hL] at h1
      simp [resEnv] at h1
      subst h1
      cases hR : evaluate r e1 with
      | panicked m =>
        left
        simp [evaluate, hL, hR, resEnv]
      | err m e2 =>
        have h2 := ihr h.2 e1
        rw [hR] at h2
        simp [resEnv] at h2
        subst h2
        right
        simp [evaluate, hL, hR, resEnv]
      | ok v2 e2 =>
        have h2 := ihr h.2 e1
        rw [hR] at h2
        simp [resEnv] at h2
        subst h2
        right
        simp [evaluate, hL, hR, resEnv]
  | Mul l r ihl ihr =>
    intro h env
    rw [noAssign, Bool.and_eq_true] at h
    cases hL : evaluate l env with
    | panicked m =>
      left
      simp [evaluate, hL, resEnv]
    | err m e1 =>
      have h1 := ihl h.1 env
      rw [hL] at h1
      simp [resEnv] at h1
      right
      simp [evaluate, hL, resEnv, h1]
    | ok v1 e1 =>
      have h1 := ihl h.1 env
      rw [hL] at h1
      simp [resEnv] at h1
      subst h1
      cases hR : evaluate r e1 with
      | panicked m =>
        left
        simp [evaluate, hL, hR, resEnv]
      | err m e2 =>
        have h2 := ihr h.2 e1
        rw [hR] at h2
        simp [resEnv] at h2
        subst h2
        right
        simp [evaluate, hL, hR, resEnv]
      | ok v2 e2 =>
        have h2 := ihr h.2 e1
        rw [hR] at h2
        simp [resEnv] at h2
        subst h2
        right
        simp [evaluate, hL, hR, resEnv]

/-- C1.  The claim says top-level `parse` fails when tokens remain after
one expression — in particular on the tokens of `"1 + 2 + 3"`.  The code
disagrees: `Parser.at_end` tests `n <= tokens.len()`, which holds in every
reachable state, so the trailing-token branch is dead and `parse` returns
`Ok(Add(1, 2))` with the cursor at 3 of 5, the `+ 3` silently ignored. -/
theorem parse_trailing_tokens_accepted :
    tokenize ("1 + 2 + 3") = .ok toks123 ∧
    parse_expression 12 ⟨toks123, 0⟩ = .ok (.Add (.Number 1) (.Number 2), ⟨toks123, 3⟩) ∧
    parse ⟨toks123, 0⟩ = .ok (.Add (.Number 1) (.Number 2)) ∧
    Parser.at_end ⟨toks123, 3⟩ = true ∧
    (⟨toks123, 3⟩ : Parser).n < (⟨toks123, 3⟩ : Parser).tokens.length := by
  decide

/-- C2.  The claim says evaluating an unbound `VariableReference` returns
a recoverable evaluation error.  The code disagrees: `Environment::lookup`
ends in `.unwrap()`, so evaluating `Variable "undefined_name"` against a
fresh environment panics (aborts the process) instead of returning an
error. -/
theorem evaluate_unbound_variable_panics :
    Environment.lookup [] "undefined_name" = none ∧
    evaluate (.Variable "undefined_name") [] =
      .panicked ("called `Option::unwrap()` on a `None` value") := by
  decide

/-- C3 counterexample.  The claim says `evaluate` evaluates the `value`
of an `Assignment` before requiring the target to be a variable, so that
with a non-variable target the value's environment mutations have already
taken effect.  At the concrete input `Assign(Number 1, Assign(Variable y,
Number 7))` in the empty environment the code returns the malformed-
assignment error with the environment still empty — `y` unbound — even
though evaluating the value alone would have bound `y` to `7`. -/
theorem assign_bad_target_skips_value_cex :
    evaluate (.Assign (.Number 1) (.Assign (.Variable "y") (.Number 7))) [] =
      .err (exprDebug (.Number 1) ++ exprDebug (.Assign (.Variable "y") (.Number 7))) [] ∧
    Environment.lookup [] "y" = none ∧
    evaluate (.Assign (.Variable "y") (.Number 7)) [] = .ok 7 [("y", 7)] := by
  decide

/-- C3 amended.  For an `Assignment` whose target is not a
`VariableReference`, `evaluate` fails with the evaluation error formatting
the malformed assignment (target then value) WITHOUT evaluating the value
sub-expression: the environment is returned unchanged, so no mutations
from the value take effect. -/
theorem assign_bad_target_no_value_eval (loc value : Expr) (env : Env)
    (h : loc.isVariable = false) :
    evaluate (.Assign loc value) env = .err (exprDebug loc ++ exprDebug value) env := by
  cases loc <;> simp_all [evaluate, Expr.isVariable]

theorem assign_bad_target_no_value_eval_witness :
    Expr.isVariable (.Number 1) = false ∧
    evaluate (.Assign (.Number 1) (.Assign (.Variable "y") (.Number 7))) [("z", 2)] =
      .err (exprDebug (.Number 1) ++ exprDebug (.Assign (.Variable "y") (.Number 7)))
        [("z", 2)] :=
  ⟨by decide,
   assign_bad_target_no_value_eval (.Number 1) (.Assign (.Variable "y") (.Number 7))
     [("z", 2)] (by decide)⟩

/-- C4.  Evaluating `Assign(Variable name, value)` when `value` evaluates
to `v` (possibly mutating the environment to `env1`) binds `name` to `v`,
and the returned value — obtained by a fresh lookup of `name` in the
updated environment, as the code does — equals `v`; evaluating
`Variable name` against the resulting environment also returns `v`. -/
theorem assign_variable_binds_and_returns (name : String) (value : Expr)
    (env env1 : Env) (v : Int) (h : evaluate value env = .ok v env1) :
    evaluate (.Assign (.Variable name) value) env =
      .ok v (Environment.assign env1 name v) ∧
    Environment.lookup (Environment.assign env1 name v) name = some v ∧
    evaluate (.Variable name) (Environment.assign env1 name v) =
      .ok v (Environment.assign env1 name v) := by
  refine ⟨?_, lookup_assign env1 name v, ?_⟩
  · simp [evaluate, h, lookup_assign]
  · simp [evaluate, lookup_assign]

theorem assign_variable_binds_and_returns_witness :
    evaluate (.Number 5) [] = .ok 5 [] ∧
    (evaluate (.Assign (.Variable "x") (.Number 5)) [] =
       .ok 5 (Environment.assign [] "x" 5) ∧
     Environment.lookup (Environment.assign [] "x" 5) "x" = some 5 ∧
     evaluate (.Variable "x") (Environment.assign [] "x" 5) =
       .ok 5 (Environment.assign [] "x" 5)) :=
  ⟨by decide, assign_variable_binds_and_returns "x" (.Number 5) [] [] 5 (by decide)⟩

/-- C6.  For any binary operation (`Add`, `Minus`, `Mul`), when the left
operand evaluates successfully to `v1` leaving environment `env1` (which
may include mutations such as an inner assignment) and the right operand
then fails with a recoverable error, the whole evaluation returns that
error, and the environment carried at the failure point is the one built
from `env1` — the left operand's mutations are not undone. -/
theorem binop_right_failure_keeps_left_effects (l r : Expr) (env env1 env2 : Env)
    (v1 : Int) (m : String) (hl : evaluate l env = .ok v1 env1)
    (hr : evaluate r env1 = .err m env2) :
    evaluate (.Add l r) env = .err m env2 ∧
    evaluate (.Minus l r) env = .err m env2 ∧
    evaluate (.Mul l r) env = .err m env2 := by
  refine ⟨?_, ?_, ?_⟩ <;> simp [evaluate, hl, hr]

theorem binop_right_failure_keeps_left_effects_witness :
    evaluate (.Assign (.Variable "x") (.Number 1)) [] = .ok 1 [("x", 1)] ∧
    evaluate (.Assign (.Number 2) (.Number 3)) [("x", 1)] =
      .err (exprDebug (.Number 2) ++ exprDebug (.Number 3)) [("x", 1)] ∧
    (evaluate (.Add (.Assign (.Variable "x") (.Number 1)) (.Assign (.Number 2) (.Number 3))) [] =
       .err (exprDebug (.Number 2) ++ exprDebug (.Number 3)) [("x", 1)] ∧
     evaluate (.Minus (.Assign (.Variable "x") (.Number 1)) (.Assign (.Number 2) (.Number 3))) [] =
       .err (exprDebug (.Number 2) ++ exprDebug (.Number 3)) [("x", 1)] ∧
     evaluate (.Mul (.Assign (.Variable "x") (.Number 1)) (.Assign (.Number 2) (.Number 3))) [] =
       .err (exprDebug (.Number 2) ++ exprDebug (.Number 3)) [("x", 1)]) :=
  ⟨by decide, by decide,
   binop_right_failure_keeps_left_effects (.Assign (.Variable "x") (.Number 1))
     (.Assign (.Number 2) (.Number 3)) [] [("x", 1)] [("x", 1)] 1
     (exprDebug (.Number 2) ++ exprDebug (.Number 3)) (by decide) (by decide)⟩

/-- C10.  Valid lexer output on which `parse` is not total: the tokens of
`"9999999999 + 1"` (tokenize accepts digit runs of any length) contain a
`Num` token whose text denotes a value above `i32::MAX = 2147483647`, so
`str::parse::<i32>()` fails and `parse_term` panics through
`expect("couldn't parse digit")` — a process abort, not a `ParseError`. -/
theorem parse_overflow_number_panics :
    tokenize ("9999999999 + 1") = .ok toksBig ∧
    parseI32 ("9999999999") = none ∧
    parse ⟨toksBig, 0⟩ = .error (.Panicked ("couldn\x27t parse digit")) := by
  decide

/-- C5.  Evaluating an expression with no `Assign` node leaves the
environment exactly unchanged (the environment carried by the outcome,
when the process survives, is the input one), and a second evaluation
against the resulting environment returns the same outcome. -/
theorem eval_no_assign_env_unchanged (e : Expr) (h : noAssign e = true) (env : Env) :
    (resEnv (evaluate e env) = none ∨ resEnv (evaluate e env) = some env) ∧
    evaluate e ((resEnv (evaluate e env)).getD env) = evaluate e env := by
  have H := eval_noAssign_resEnv e h env
  refine ⟨H, ?_⟩
  rcases H with H | H <;> rw [H] <;> rfl

theorem eval_no_assign_env_unchanged_witness :
    noAssign (.Variable "x") = true ∧
    ((resEnv (evaluate (.Variable "x") [("x", 3)]) = none ∨
      resEnv (evaluate (.Variable "x") [("x", 3)]) = some [("x", 3)]) ∧
     evaluate (.Variable "x") ((resEnv (evaluate (.Variable "x") [("x", 3)])).getD [("x", 3)]) =
       evaluate (.Variable "x") [("x", 3)]) :=
  ⟨by decide, eval_no_assign_env_unchanged (.Variable "x") (by decide) [("x", 3)]⟩

/-- C7.  `tokenize` turns `"12 + foo"` into exactly
`[Num "12", Plus, Name "foo"]`; and in general one scanning pass skips a
whitespace character, turns a maximal ASCII-digit run into one `Num`
token holding that run, and turns a maximal ASCII-alphabetic run into one
`Name` token holding that run (`takeWhile Char.isAlpha` stops at a digit
without consuming it, as `tokenize "ab1"` shows concretely). -/
theorem tokenize_runs_spec :
    tokenize ("12 + foo") =
      .ok [⟨TokenType.Num, "12"⟩, ⟨TokenType.Plus, "+"⟩, ⟨TokenType.Name, "foo"⟩] ∧
    (∀ (fuel : Nat) (c : Char) (cs : List Char), c.isWhitespace = true →
      tokenizeF (fuel + 1) (c :: cs) = tokenizeF fuel cs) ∧
    (∀ (fuel : Nat) (c : Char) (cs : List Char), c.isDigit = true →
      tokenizeF (fuel + 1) (c :: cs) =
        (tokenizeF fuel (cs.dropWhile Char.isDigit)).map
          (fun ts => ⟨TokenType.Num, String.mk (c :: cs.takeWhile Char.isDigit)⟩ :: ts)) ∧
    (∀ (fuel : Nat) (c : Char) (cs : List Char), c.isAlpha = true →
      tokenizeF (fuel + 1) (c :: cs) =
        (tokenizeF fuel (cs.dropWhile Char.isAlpha)).map
          (fun ts => ⟨TokenType.Name, String.mk (c :: cs.takeWhile Char.isAlpha)⟩ :: ts)) ∧
    tokenize ("ab1") = .ok [⟨TokenType.Name, "ab"⟩, ⟨TokenType.Num, "1"⟩] := by
  refine ⟨by decide, ?_, ?_, ?_, by decide⟩
  · intro fuel c cs hw
    simp [tokenizeF, ws_sub_rws c hw]
  · intro fuel c cs hd
    simp [tokenizeF, hd, digit_not_rws c hd]
  · intro fuel c cs ha
    simp [tokenizeF, ha, alpha_not_rws c ha, alpha_not_digit c ha]

theorem tokenize_runs_spec_witness :
    Char.isDigit '1' = true ∧
    tokenizeF (3 + 1) ('1' :: ("2 a").toList) =
      (tokenizeF 3 (("2 a").toList.dropWhile Char.isDigit)).map
        (fun ts => ⟨TokenType.Num, String.mk ('1' :: ("2 a").toList.takeWhile Char.isDigit)⟩ :: ts) ∧
    Char.isAlpha 'f' = true ∧
    tokenizeF (2 + 1) ('f' :: ("oo").toList) =
      (tokenizeF 2 (("oo").toList.dropWhile Char.isAlpha)).map
        (fun ts => ⟨TokenType.Name, String.mk ('f' :: ("oo").toList.takeWhile Char.isAlpha)⟩ :: ts) ∧
    Char.isWhitespace ' ' = true ∧
    tokenizeF (0 + 1) (' ' :: []) = tokenizeF 0 [] :=
  ⟨by decide, tokenize_runs_spec.2.2.1 3 '1' ("2 a").toList (by decide),
   by decide, tokenize_runs_spec.2.2.2.1 2 'f' ("oo").toList (by decide),
   by decide, tokenize_runs_spec.2.1 0 ' ' [] (by decide)⟩

/-- Scanning a character list that contains a character outside every
lexer character class ends in the `charToken` error naming (the first
reached) such character, for any sufficient fuel. -/
theorem tokenizeF_badchar_aux : ∀ (fuel : Nat) (l : List Char), l.length ≤ fuel →
    (∃ c ∈ l, goodChar c = false) →
    ∃ c2, goodChar c2 = false ∧ c2 ∈ l ∧
      tokenizeF fuel l = .error ("Couldn\x27t parse " ++ String.singleton c2 ++ " to a token") := by
  intro fuel
  induction fuel with
  | zero =>
    intro l hlen hbad
    obtain ⟨c, hcmem, hcbad⟩ := hbad
    cases l with
    | nil => simp at hcmem
    | cons c0 cs => simp at hlen
  | succ fuel ih =>
    intro l hlen hbad
    obtain ⟨c, hcmem, hcbad⟩ := hbad
    cases l with
    | nil => simp at hcmem
    | cons c0 cs =>
      have hlen2 : cs.length ≤ fuel := by
        simp [List.length_cons] at hlen
        omega
      by_cases hws : rustIsWhitespace c0 = true
      · have hc0good : goodChar c0 = true := by simp [goodChar, hws]
        have hcs : c ∈ cs := by
          rcases List.mem_cons.mp hcmem with rfl | hmem2
          · rw [hc0good] at hcbad
            cases hcbad
          · exact hmem2
        obtain ⟨c2, h1, h2, h3⟩ := ih cs hlen2 ⟨c, hcs, hcbad⟩
        exact ⟨c2, h1, List.mem_cons_of_mem _ h2, by simp [tokenizeF, hws, h3]⟩
      · have hws0 : rustIsWhitespace c0 = false := by
          revert hws
          cases rustIsWhitespace c0 <;> simp
        by_cases hdig : c0.isDigit = true
        · have hc0good : goodChar c0 = true := by simp [goodChar, hdig]
          have hcs : c ∈ cs := by
            rcases List.mem_cons.mp hcmem with rfl | hmem2
            · rw [hc0good] at hcbad
              cases hcbad
            · exact hmem2
          have hdrop : c ∈ cs.dropWhile Char.isDigit := by
            have hmemapp : c ∈ cs.takeWhile Char.isDigit ++ cs.dropWhile Char.isDigit := by
              rw [List.takeWhile_append_dropWhile]
              exact hcs
            rcases List.mem_append.mp hmemapp with htake | hd
            · have hdc := List.mem_takeWhile_imp htake
              rw [show goodChar c = true from by simp [goodChar, hdc]] at hcbad
              cases hcbad
            · exact hd
          have hlen3 : (cs.dropWhile Char.isDigit).length ≤ fuel :=
            le_trans (List.Sublist.length_le (List.dropWhile_sublist _)) hlen2
          obtain ⟨c2, h1, h2, h3⟩ := ih _ hlen3 ⟨c, hdrop, hcbad⟩
          refine ⟨c2, h1,
            List.mem_cons_of_mem _ ((List.dropWhile_sublist Char.isDigit).subset h2), ?_⟩
          simp [tokenizeF, hws0, hdig, h3, Except.map]
        · have hd0 : c0.isDigit = false := by
            revert hdig
            cases c0.isDigit <;> simp
          by_cases halpha : c0.isAlpha = true
          · have hc0good : goodChar c0 = true := by simp [goodChar, halpha]
            have hcs : c ∈ cs := by
              rcases List.mem_cons.mp hcmem with rfl | hmem2
              · rw [hc0good] at hcbad
                cases hcbad
              · exact hmem2
            have hdrop : c ∈ cs.dropWhile Char.isAlpha := by
              have hmemapp : c ∈ cs.takeWhile Char.isAlpha ++ cs.dropWhile Char.isAlpha := by
                rw [List.takeWhile_append_dropWhile]
                exact hcs
              rcases List.mem_append.mp hmemapp with htake | hd
              · have hac := List.mem_takeWhile_imp htake
                rw [show goodChar c = true from by simp [goodChar, hac]] at hcbad
                cases hcbad
              · exact hd
            have hlen3 : (cs.dropWhile Char.isAlpha).length ≤ fuel :=
              le_trans (List.Sublist.length_le (List.dropWhile_sublist _)) hlen2
            obtain ⟨c2, h1, h2, h3⟩ := ih _ hlen3 ⟨c, hdrop, hcbad⟩
            refine ⟨c2, h1,
              List.mem_cons_of_mem _ ((List.dropWhile_sublist Char.isAlpha).subset h2), ?_⟩
            simp [tokenizeF, hws0, hd0, halpha, h3, Except.map]
          · have ha0 : c0.isAlpha = false := by
              revert halpha
              cases c0.isAlpha <;> simp
            by_cases hgood : goodChar c0 = true
            · have hsym : ((((c0 = '+' ∨ c0 = '-') ∨ c0 = '*') ∨ c0 = '(') ∨ c0 = ')') ∨ c0 = '=' := by
                simpa [goodChar, hws0, hd0, ha0] using hgood
              have hok : ∃ t, charToken c0 = .ok t := by
                rcases hsym with ((((rfl | rfl) | rfl) | rfl) | rfl) | rfl
                · exact ⟨⟨TokenType.Plus, "+"⟩, by decide⟩
                · exact ⟨⟨TokenType.Minus, "-"⟩, by decide⟩
                · exact ⟨⟨TokenType.Times, "*"⟩, by decide⟩
                · exact ⟨⟨TokenType.Lparen, "("⟩, by decide⟩
                · exact ⟨⟨TokenType.Rparen, ")"⟩, by decide⟩
                · exact ⟨⟨TokenType.Assign, "="⟩, by decide⟩
              obtain ⟨t, ht⟩ := hok
              have hcs : c ∈ cs := by
                rcases List.mem_cons.mp hcmem with rfl | hmem2
                · rw [hgood] at hcbad
                  cases hcbad
                · exact hmem2
              obtain ⟨c2, h1, h2, h3⟩ := ih cs hlen2 ⟨c, hcs, hcbad⟩
              exact ⟨c2, h1, List.mem_cons_of_mem _ h2,
                by simp [tokenizeF, hws0, hd0, ha0, ht, h3, Except.map]⟩
            · have hbad0 : goodChar c0 = false := by
                revert hgood
                cases goodChar c0 <;> simp
              exact ⟨c0, hbad0, List.mem_cons_self _ _,
                by simp [tokenizeF, hws0, hd0, ha0, charToken_of_bad c0 hbad0]⟩

/-- C8.  Any input line containing a character that is not whitespace, an
ASCII digit, an ASCII letter, or one of the six symbol characters makes
`tokenize` fail with the lex error naming an offending character; no token
sequence — in particular no partial one — is returned (the `Except` result
is all-or-nothing). -/
theorem tokenize_bad_char_fails (s : String) (c : Char) (hmem : c ∈ s.toList)
    (hbad : goodChar c = false) :
    ∃ c2, goodChar c2 = false ∧ c2 ∈ s.toList ∧
      tokenize s = .error ("Couldn\x27t parse " ++ String.singleton c2 ++ " to a token") :=
  tokenizeF_badchar_aux s.toList.length s.toList le_rfl ⟨c, hmem, hbad⟩

theorem tokenize_bad_char_fails_witness :
    ('@' ∈ ("1 @ 2").toList) ∧ goodChar '@' = false ∧
    (∃ c2, goodChar c2 = false ∧ c2 ∈ ("1 @ 2").toList ∧
      tokenize ("1 @ 2") =
        .error ("Couldn\x27t parse " ++ String.singleton c2 ++ " to a token")) :=
  ⟨by decide, by decide, tokenize_bad_char_fails ("1 @ 2") '@' (by decide) (by decide)⟩

/-- C9.  The claim says the tokens of `"(1 + 2) * 3"` parse to a `Mul`
with the parenthesized `Add` on the left, evaluating to `9`, and that
`"(1 + 2"` fails reporting the unclosed parenthesis.  The code disagrees
on both concrete runs: `Parser::last` errors whenever the cursor has
reached the end of the token sequence, which happens right after the
final `Num "3"` (resp. `Num "2"`) is consumed, so both parses fail with
the generic "Syntax error somewhere." — the well-parenthesized line does
not parse at all (the evaluator itself would map the claimed tree to `9`,
as the fourth conjunct shows). -/
theorem paren_example_parse_fails :
    tokenize ("(1 + 2) * 3") = .ok toksParen ∧
    parse ⟨toksParen, 0⟩ = .error (.SyntaxError ("Syntax error somewhere.")) ∧
    Parser.last ⟨toksParen, 7⟩ = .error (.SyntaxError ("Syntax error somewhere.")) ∧
    evaluate (.Mul (.Add (.Number 1) (.Number 2)) (.Number 3)) [] = .ok 9 [] ∧
    parse ⟨toksUnbalanced, 0⟩ = .error (.SyntaxError ("Syntax error somewhere.")) := by
  decide
